import Mathlib

/-!
Shallow embedding of the ceems eBPF collector core
(`pkg/collector/bpf/`): mount-path resolution (`lib/bpf_path.h`),
socket tuple and delta-stats tracking (`lib/bpf_sock.h`), VFS
aggregation (`vfs/bpf_vfs.h`) and network aggregation
(`network/bpf_network.h`).

Machine integers are modelled as `Nat` with explicit reductions
(`% 2^32`, `% 2^64`) where the C code truncates or wraps; C `int`/`s64`
values that can be negative are modelled as `Int`.  BPF maps are
modelled as functions `key → Option value`; a single invocation of a
handler is a pure state transformer (the BPF programs are
run-to-completion).  `bpf_probe_read` of a kernel structure field is
modelled by a record field holding the value the read returns.
-/

set_option autoImplicit false
set_option maxRecDepth 100000

namespace Ceems

/-- 2^64, the modulus of the C `__u64` counters. -/
def U64 : Nat := 18446744073709551616

/-- 2^32, the modulus of the C `__u32` values. -/
def U32 : Nat := 4294967296

/-- 2^16, the modulus of the C `__u16` values. -/
def U16 : Nat := 65536

/-- `AF_INET` address family constant. -/
def AF_INET : Nat := 2

/-- `AF_INET6` address family constant. -/
def AF_INET6 : Nat := 10

/-- `IPPROTO_TCP`. -/
def IPPROTO_TCP : Nat := 6

/-- `IPPROTO_UDP`. -/
def IPPROTO_UDP : Nat := 17

/-- `u64` subtraction `a - b` with wraparound, as the C `__u64`
subtraction in `read_conn_stats` computes it (`a` is already reduced
mod 2^64 by the caller). -/
def u64sub (a b : Nat) : Nat := (a + (U64 - b % U64)) % U64

/-! ### `lib/bpf_sock.h`: connection tuples and delta stats -/

/-- `struct conn_event` (`lib/bpf_sock.h`): key of `socket_accumulator`. -/
structure conn_event where
  saddr_h : Nat
  saddr_l : Nat
  daddr_h : Nat
  daddr_l : Nat
  sport : Nat
  dport : Nat
deriving DecidableEq, Repr

/-- `struct conn_stats` (`lib/bpf_sock.h`): cumulative (and incremental)
per-socket counters. -/
structure conn_stats where
  packets_in : Nat
  packets_out : Nat
  bytes_received : Nat
  bytes_sent : Nat
  total_retrans : Nat
  bytes_retrans : Nat
deriving DecidableEq, Repr

/-- The values the bounds-checked kernel reads of `lib/bpf_sock.h`
return for one `struct sock`: `_sk_family`, `read_saddr_v4`,
`read_daddr_v4`, `read_saddr_v6`/`read_daddr_v6`, `read_sport`,
`read_dport`, and the `tcp_sock` counter fields read by
`read_conn_stats` (`segs_in`, `segs_out`, `bytes_received`,
`bytes_sent`, `total_retrans`, `bytes_retrans`). -/
structure SockData where
  family : Nat
  saddr_v4 : Nat
  daddr_v4 : Nat
  saddr6_h : Nat
  saddr6_l : Nat
  daddr6_h : Nat
  daddr6_l : Nat
  sport : Nat
  dport : Nat
  segs_in : Nat
  segs_out : Nat
  bytes_received : Nat
  bytes_sent : Nat
  total_retrans : Nat
  bytes_retrans : Nat
deriving Repr

/-- `is_ipv4_mapped_ipv6` (`lib/bpf_sock.h` lines 42-51), little-endian
branch (the collector's fentry/fexit programs target x86): an address
pair is classified as IPv4-mapped IPv6 when the high half is zero and
the low 32 bits of the low half are `0xFFFF0000`. -/
def is_ipv4_mapped_ipv6 (saddr_h saddr_l daddr_h daddr_l : Nat) : Bool :=
  (saddr_h == 0 && saddr_l % U32 == 4294901760) ||
    (daddr_h == 0 && daddr_l % U32 == 4294901760)

/-- The IPv4-mapped-IPv6 normalization step of `read_conn_tuple`
(`lib/bpf_sock.h` lines 238-243): when `is_ipv4_mapped_ipv6` holds,
zero both high halves and keep `(__u32)(addr_l >> 32)` of each low
half. -/
def normalize_mapped (t : conn_event) : conn_event :=
  if is_ipv4_mapped_ipv6 t.saddr_h t.saddr_l t.daddr_h t.daddr_l then
    { t with saddr_h := 0, daddr_h := 0,
             saddr_l := (t.saddr_l / U32) % U32,
             daddr_l := (t.daddr_l / U32) % U32 }
  else t

/-- `read_conn_tuple` (`lib/bpf_sock.h` lines 204-261).  Takes the
incoming (caller-initialized) tuple `t` and the socket reads, returns
the filled tuple and the error flag (`0` success, `1` otherwise). -/
def read_conn_tuple (t0 : conn_event) (sk : SockData) : conn_event × Nat :=
  let family := sk.family % U16
  let te :=
    if family = AF_INET then
      let t := if t0.saddr_l = 0 then { t0 with saddr_l := sk.saddr_v4 % U32 } else t0
      let t := if t.daddr_l = 0 then { t with daddr_l := sk.daddr_v4 % U32 } else t
      (t, if t.saddr_l = 0 ∨ t.daddr_l = 0 then 1 else 0)
    else if family = AF_INET6 then
      let t := if t0.saddr_h = 0 ∧ t0.saddr_l = 0 then
                 { t0 with saddr_h := sk.saddr6_h % U64, saddr_l := sk.saddr6_l % U64 }
               else t0
      let t := if t.daddr_h = 0 ∧ t.daddr_l = 0 then
                 { t with daddr_h := sk.daddr6_h % U64, daddr_l := sk.daddr6_l % U64 }
               else t
      let e := if t.saddr_h = 0 ∧ t.saddr_l = 0 then 1 else 0
      let e := if t.daddr_h = 0 ∧ t.daddr_l = 0 then 1 else e
      (normalize_mapped t, e)
    else (t0, 1)
  let t := te.1
  let t := if t.sport = 0 then { t with sport := sk.sport % U16 } else t
  let t := if t.dport = 0 then { t with dport := sk.dport % U16 } else t
  let err := if t.sport = 0 ∨ t.dport = 0 then 1 else te.2
  (t, err)

/-- The cumulative counters `read_conn_stats` reads out of the
`tcp_sock`: `segs_in`, `segs_out` and `total_retrans` are `__u32`
fields cast to `__u64`; the byte counters are `__u64`. -/
def current_conn_stats (sk : SockData) : conn_stats :=
  { packets_in := sk.segs_in % U32
    packets_out := sk.segs_out % U32
    bytes_received := sk.bytes_received % U64
    bytes_sent := sk.bytes_sent % U64
    total_retrans := sk.total_retrans % U32
    bytes_retrans := sk.bytes_retrans % U64 }

/-- The `socket_accumulator` LRU map (`lib/bpf_sock.h`), keyed by the
full connection tuple, holding the last-seen cumulative counters. -/
def SockMap : Type := conn_event → Option conn_stats

/-- `read_conn_stats` (`lib/bpf_sock.h` lines 270-326).  Returns
`none` when the tuple does not resolve (C return value 1), otherwise
`some` of the incremental stats (C return value 0), together with the
updated `socket_accumulator`.  On a missing key the current cumulative
counters are returned verbatim and inserted (`BPF_NOEXIST`); on a
present key each incremental field is the plain `__u64` difference
`current - stored` and the stored baseline is overwritten with the
current values. -/
def read_conn_stats (sk : SockData) (m : SockMap) : Option conn_stats × SockMap :=
  let t0 : conn_event := ⟨0, 0, 0, 0, 0, 0⟩
  let te := read_conn_tuple t0 sk
  if te.2 ≠ 0 then (none, m)
  else
    let t := te.1
    let cur := current_conn_stats sk
    match m t with
    | none => (some cur, fun k => if k = t then some cur else m k)
    | some stats =>
        let incr : conn_stats :=
          { packets_in := u64sub cur.packets_in stats.packets_in
            packets_out := u64sub cur.packets_out stats.packets_out
            bytes_received := u64sub cur.bytes_received stats.bytes_received
            bytes_sent := u64sub cur.bytes_sent stats.bytes_sent
            total_retrans := u64sub cur.total_retrans stats.total_retrans
            bytes_retrans := u64sub cur.bytes_retrans stats.bytes_retrans }
        (some incr, fun k => if k = t then some cur else m k)

/-! ### `network/bpf_network.h`: network aggregation -/

/-- `enum net_mode` (`network/bpf_network.h`). -/
inductive net_mode where
  | MODE_INGRESS
  | MODE_EGRESS
deriving DecidableEq, Repr

/-- `struct net_event` (`network/bpf_network.h`): key of the network
accumulators. -/
structure net_event where
  cid : Nat
  proto : Nat
  fam : Nat
deriving DecidableEq, Repr

/-- `struct net_stats` (`network/bpf_network.h`). -/
structure net_stats where
  packets : Nat
  bytes : Nat
deriving DecidableEq, Repr

/-- A network accumulator LRU map. -/
def NetMap : Type := net_event → Option net_stats

/-- Point update of a network accumulator. -/
def netUpd (m : NetMap) (key : net_event) (v : net_stats) : NetMap :=
  fun k => if k = key then some v else m k

/-- `handle_ingress_event` (`network/bpf_network.h` lines 69-90):
missing key inserts `{packets_in, bytes_received}`; present key adds
both fields only when `packets_in > 0`. -/
def handle_ingress_event (key : net_event) (stats : conn_stats) (m : NetMap) : NetMap :=
  match m key with
  | none => netUpd m key ⟨stats.packets_in, stats.bytes_received⟩
  | some s =>
      if stats.packets_in > 0 then
        netUpd m key ⟨(s.packets + stats.packets_in) % U64, (s.bytes + stats.bytes_received) % U64⟩
      else m

/-- `handle_egress_event` (`network/bpf_network.h` lines 99-120). -/
def handle_egress_event (key : net_event) (stats : conn_stats) (m : NetMap) : NetMap :=
  match m key with
  | none => netUpd m key ⟨stats.packets_out, stats.bytes_sent⟩
  | some s =>
      if stats.packets_out > 0 then
        netUpd m key ⟨(s.packets + stats.packets_out) % U64, (s.bytes + stats.bytes_sent) % U64⟩
      else m

/-- `handle_retrans_event` (`network/bpf_network.h` lines 129-150). -/
def handle_retrans_event (key : net_event) (stats : conn_stats) (m : NetMap) : NetMap :=
  match m key with
  | none => netUpd m key ⟨stats.total_retrans, stats.bytes_retrans⟩
  | some s =>
      if stats.total_retrans > 0 then
        netUpd m key ⟨(s.packets + stats.total_retrans) % U64, (s.bytes + stats.bytes_retrans) % U64⟩
      else m

/-- The shared network-side map state: the three aggregation tables and
the per-tuple baseline table. -/
structure NetState where
  ingress_accumulator : NetMap
  egress_accumulator : NetMap
  retrans_accumulator : NetMap
  socket_accumulator : SockMap

/-- `handle_tcp_event` (`network/bpf_network.h` lines 158-190).
`cgid` is the `__u64` returned by `ceems_get_current_cgroup_id`; the
key's `cid` is its `__u32` truncation.  Note the guard drops the event
only for cid `0`. -/
def handle_tcp_event (cgid : Nat) (sk : SockData) (st : NetState) : NetState :=
  let cid := cgid % U32
  if cid = 0 then st
  else
    let key : net_event := ⟨cid, IPPROTO_TCP, sk.family % U16⟩
    match read_conn_stats sk st.socket_accumulator with
    | (none, m) => { st with socket_accumulator := m }
    | (some stats, m) =>
        { st with
          socket_accumulator := m
          ingress_accumulator := handle_ingress_event key stats st.ingress_accumulator
          egress_accumulator := handle_egress_event key stats st.egress_accumulator
          retrans_accumulator := handle_retrans_event key stats st.retrans_accumulator }

/-- `handle_udp_event` (`network/bpf_network.h` lines 198-252).
`ret` is the kernel function's return (`int`); non-positive returns
are dropped first, then cid `0` (only). -/
def handle_udp_event (cgid : Nat) (ret : Int) (family : Nat) (ty : net_mode) (st : NetState) : NetState :=
  if ret ≤ 0 then st
  else
    let bytes := ret.toNat
    let cid := cgid % U32
    if cid = 0 then st
    else
      let key : net_event := ⟨cid, IPPROTO_UDP, family % U16⟩
      match ty with
      | .MODE_INGRESS =>
          match st.ingress_accumulator key with
          | none =>
              { st with ingress_accumulator := netUpd st.ingress_accumulator key ⟨1, bytes % U64⟩ }
          | some s =>
              { st with ingress_accumulator :=
                  netUpd st.ingress_accumulator key ⟨(s.packets + 1) % U64, (s.bytes + bytes) % U64⟩ }
      | .MODE_EGRESS =>
          match st.egress_accumulator key with
          | none =>
              { st with egress_accumulator := netUpd st.egress_accumulator key ⟨1, bytes % U64⟩ }
          | some s =>
              { st with egress_accumulator :=
                  netUpd st.egress_accumulator key ⟨(s.packets + 1) % U64, (s.bytes + bytes) % U64⟩ }

/-! ### `vfs/bpf_vfs.h`: VFS aggregation -/

/-- `enum vfs_mode` (`vfs/bpf_vfs.h`). -/
inductive vfs_mode where
  | MODE_READ
  | MODE_WRITE
  | MODE_OPEN
  | MODE_CREATE
  | MODE_MKDIR
  | MODE_UNLINK
  | MODE_RMDIR
deriving DecidableEq, Repr

/-- `MAX_MOUNT_SIZE` (`include/compiler.h`). -/
def MAX_MOUNT_SIZE : Nat := 64

/-- `struct vfs_event_key` (`vfs/bpf_vfs.h`): cgroup id plus the
64-byte mount-point buffer (modelled as the byte list `get_mnt_path`
copied into it). -/
structure vfs_event_key where
  cid : Nat
  mnt : List Nat
deriving DecidableEq, Repr

/-- `struct vfs_rw_event` (`vfs/bpf_vfs.h`). -/
structure vfs_rw_event where
  bytes : Nat
  calls : Nat
  errors : Nat
deriving DecidableEq, Repr

/-- `struct vfs_inode_event` (`vfs/bpf_vfs.h`). -/
structure vfs_inode_event where
  calls : Nat
  errors : Nat
deriving DecidableEq, Repr

/-- `is_substring` (`vfs/bpf_vfs.h` lines 138-153): compares up to
`size` characters; a null in the test string ends the comparison with
success, a mismatch returns 0, surviving all `size` rounds returns 1. -/
def is_substring (test s : List Nat) (size : Nat) : Nat :=
  match size with
  | 0 => 1
  | n + 1 =>
      let c1 := test.headD 0
      let c2 := s.headD 0
      if c1 = 0 then 1
      else if c1 ≠ c2 then 0
      else is_substring test.tail s.tail n

/-- `ignore_mnt` (`vfs/bpf_vfs.h` lines 161-176).  The byte lists are
the literals `"/dev"`, `"/sys"` and `"/proc"` with their null
terminators; the source passes `sizeof(dev_mnt)` (= 5) to all three
`is_substring` calls. -/
def ignore_mnt (mnt : List Nat) : Nat :=
  let dev_mnt : List Nat := [47, 100, 101, 118, 0]
  let sys_mnt : List Nat := [47, 115, 121, 115, 0]
  let proc_mnt : List Nat := [47, 112, 114, 111, 99, 0]
  if is_substring dev_mnt mnt 5 = 1 then 1
  else if is_substring sys_mnt mnt 5 = 1 then 1
  else if is_substring proc_mnt mnt 5 = 1 then 1
  else 0

/-- A VFS read/write accumulator LRU map. -/
def VfsRwMap : Type := vfs_event_key → Option vfs_rw_event

/-- Point update of a read/write accumulator. -/
def vfsRwUpd (m : VfsRwMap) (key : vfs_event_key) (v : vfs_rw_event) : VfsRwMap :=
  fun k => if k = key then some v else m k

/-- The fresh record `handle_rw_event` inserts for an absent key
(`vfs/bpf_vfs.h` lines 241-252): calls 1, and either one error (for a
negative return) or the returned byte count. -/
def rw_new_event (ret : Int) : vfs_rw_event :=
  if ret < 0 then { bytes := 0, calls := 1, errors := 1 }
  else { bytes := ret.toNat % U64, calls := 1, errors := 0 }

/-- The atomic increments `handle_rw_event` applies to a present
record (`vfs/bpf_vfs.h` lines 269-277): always one call, then one
error or `ret` bytes. -/
def rw_apply (ret : Int) (e : vfs_rw_event) : vfs_rw_event :=
  let e := { e with calls := (e.calls + 1) % U64 }
  if ret < 0 then { e with errors := (e.errors + 1) % U64 }
  else { e with bytes := (e.bytes + ret.toNat) % U64 }

/-- The VFS read/write map state. -/
structure VfsRwState where
  write_accumulator : VfsRwMap
  read_accumulator : VfsRwMap

/-- `handle_rw_event` (`vfs/bpf_vfs.h` lines 190-280).  `cgid` is the
`__u64` the cgroup resolver returned (the key keeps its `__u32`
truncation) and `mnt` is the 64-byte mount buffer `get_mnt_path`
filled into the key (all zero when resolution failed).  Guards in
source order: cid 0 or 1, empty mount (`!key.mnt[0]`), ignored mount;
then lookup and create-or-add on the table selected by `type`. -/
def handle_rw_event (cgid : Nat) (mnt : List Nat) (ret : Int) (ty : vfs_mode) (st : VfsRwState) : VfsRwState :=
  let cid := cgid % U32
  let key : vfs_event_key := ⟨cid, mnt⟩
  if cid = 0 ∨ cid = 1 then st
  else if mnt.headD 0 = 0 then st
  else if ignore_mnt mnt = 1 then st
  else
    match ty with
    | .MODE_WRITE =>
        match st.write_accumulator key with
        | none => { st with write_accumulator := vfsRwUpd st.write_accumulator key (rw_new_event ret) }
        | some e => { st with write_accumulator := vfsRwUpd st.write_accumulator key (rw_apply ret e) }
    | .MODE_READ =>
        match st.read_accumulator key with
        | none => { st with read_accumulator := vfsRwUpd st.read_accumulator key (rw_new_event ret) }
        | some e => { st with read_accumulator := vfsRwUpd st.read_accumulator key (rw_apply ret e) }
    | _ => st

/-- One invocation of `handle_rw_event` racing with a concurrent
writer on another CPU: `interfere` is the record the other writer
inserts for the same key between this invocation's (failed) lookup and
its `bpf_map_update_elem(..., BPF_NOEXIST)`.  Per BPF map semantics
the `BPF_NOEXIST` update then fails with `-EEXIST` and leaves the
other writer's record in place; the source discards the update's
return value and returns 0 immediately (`vfs/bpf_vfs.h` lines
253-267), so the increment of the losing writer is not reapplied. -/
def handle_rw_event_raced (cgid : Nat) (mnt : List Nat) (ret : Int) (ty : vfs_mode)
    (interfere : Option vfs_rw_event) (st : VfsRwState) : VfsRwState :=
  let cid := cgid % U32
  let key : vfs_event_key := ⟨cid, mnt⟩
  if cid = 0 ∨ cid = 1 then st
  else if mnt.headD 0 = 0 then st
  else if ignore_mnt mnt = 1 then st
  else
    match ty with
    | .MODE_WRITE =>
        match st.write_accumulator key with
        | none =>
            match interfere with
            | none => { st with write_accumulator := vfsRwUpd st.write_accumulator key (rw_new_event ret) }
            | some r => { st with write_accumulator := vfsRwUpd st.write_accumulator key r }
        | some e => { st with write_accumulator := vfsRwUpd st.write_accumulator key (rw_apply ret e) }
    | .MODE_READ =>
        match st.read_accumulator key with
        | none =>
            match interfere with
            | none => { st with read_accumulator := vfsRwUpd st.read_accumulator key (rw_new_event ret) }
            | some r => { st with read_accumulator := vfsRwUpd st.read_accumulator key r }
        | some e => { st with read_accumulator := vfsRwUpd st.read_accumulator key (rw_apply ret e) }
    | _ => st

/-- A VFS inode accumulator LRU map (key is the bare `__u32` cgroup
id). -/
def VfsInodeMap : Type := Nat → Option vfs_inode_event

/-- The fresh record `handle_inode_event` inserts for an absent key
(`vfs/bpf_vfs.h` lines 324-331). -/
def inode_new_event (ret : Int) : vfs_inode_event :=
  if ret ≠ 0 then { calls := 1, errors := 1 } else { calls := 1, errors := 0 }

/-- The atomic increments `handle_inode_event` applies to a present
record (`vfs/bpf_vfs.h` lines 357-363). -/
def inode_apply (ret : Int) (e : vfs_inode_event) : vfs_inode_event :=
  let e := { e with calls := (e.calls + 1) % U64 }
  if ret ≠ 0 then { e with errors := (e.errors + 1) % U64 } else e

/-- Lookup-then-create-or-add on one inode accumulator. -/
def inode_step (ret : Int) (m : VfsInodeMap) (key : Nat) : VfsInodeMap :=
  match m key with
  | none => fun k => if k = key then some (inode_new_event ret) else m k
  | some e => fun k => if k = key then some (inode_apply ret e) else m k

/-- The VFS inode map state. -/
structure VfsInodeState where
  open_accumulator : VfsInodeMap
  create_accumulator : VfsInodeMap
  unlink_accumulator : VfsInodeMap

/-- `handle_inode_event` (`vfs/bpf_vfs.h` lines 290-366).  The switch
arms are kept separate as in the source: `MODE_CREATE` and
`MODE_MKDIR` both address `create_accumulator`, `MODE_UNLINK` and
`MODE_RMDIR` both address `unlink_accumulator`. -/
def handle_inode_event (cgid : Nat) (ret : Int) (ty : vfs_mode) (st : VfsInodeState) : VfsInodeState :=
  let key := cgid % U32
  if key = 0 ∨ key = 1 then st
  else
    match ty with
    | .MODE_OPEN => { st with open_accumulator := inode_step ret st.open_accumulator key }
    | .MODE_CREATE => { st with create_accumulator := inode_step ret st.create_accumulator key }
    | .MODE_MKDIR => { st with create_accumulator := inode_step ret st.create_accumulator key }
    | .MODE_RMDIR => { st with unlink_accumulator := inode_step ret st.unlink_accumulator key }
    | .MODE_UNLINK => { st with unlink_accumulator := inode_step ret st.unlink_accumulator key }
    | _ => st

/-! ### `lib/bpf_path.h`: mount-path resolution

The scratch buffer is modelled as a function from byte offsets (from
the start of the `buffer_heap_map` slot) to byte values; pointers into
it are offsets.  A mount hierarchy is modelled as the list of the
dentry names the backward walk visits, innermost mount point first;
the empty list means the walk is standing on the global root dentry
(`IS_ROOT`, or equivalently the self-parented root mount whose
mount-point dentry repeats, the `curr_de == prev_de` stop).  Ghost
fields (`calls`, `wstart`/`wlen`, `writes`) record the number of
`mnt_path_read` rounds executed and the byte regions the
`bpf_probe_read` copies wrote; they do not influence the computation. -/

/-- `UNRESOLVED_PATH_COMPONENTS` (`lib/bpf_path.h`). -/
def UNRESOLVED_PATH_COMPONENTS : Int := 2

/-- `PROBE_MNT_ITERATIONS` (`lib/bpf_path.h`). -/
def PROBE_MNT_ITERATIONS : Nat := 8

/-- `ENAMETOOLONG` (`lib/bpf_path.h`). -/
def ENAMETOOLONG : Int := 36

/-- `MAX_BUF_LEN` (`lib/bpf_path.h`). -/
def MAX_BUF_LEN : Nat := 4096

/-- The scratch buffer of `buffer_heap_map` (`MAX_BUF_LEN + 256`
bytes), as a byte store indexed by offset. -/
def Buf : Type := Nat → Nat

/-- Store one byte. -/
def bufWrite (b : Buf) (i : Nat) (v : Nat) : Buf :=
  fun j => if j = i then v % 256 else b j

/-- `bpf_probe_read(buf + dst, len, name)`: copy `len` bytes of `name`
to offset `dst`. -/
def bufCopy (b : Buf) (dst : Nat) (name : List Nat) (len : Nat) : Buf :=
  fun j => if dst ≤ j ∧ j < dst + len then name.getD (j - dst) 0 % 256 else b j

/-- Result of `prepend_name`: the error code and the three
by-reference outputs, plus the ghost written region. -/
structure PrependName where
  error : Int
  buf : Buf
  bufptr : Nat
  buflen : Int
  wstart : Nat
  wlen : Nat

/-- `prepend_name` (`lib/bpf_path.h` lines 85-131).  `bufptr` is the
write cursor as an offset (the C `*bufptr - buf` difference), `buflen`
the remaining length.  The early returns reproduce exactly which of
the by-reference outputs the C code has already updated at each return
site: the `namelen` range check changes nothing; the two bound checks
fire after `*buflen` was decremented; the truncating path (name does
not fit, `write_slash == 0`) writes the tail of the name, moves the
cursor, and still returns `-ENAMETOOLONG`. -/
def prepend_name (buf : Buf) (bufptr : Nat) (buflen : Int) (name : List Nat) (namelen : Int) : PrependName :=
  if namelen < 0 ∨ namelen > 256 then ⟨-ENAMETOOLONG, buf, bufptr, buflen, 0, 0⟩
  else
    let buffer_offset : Int := (bufptr : Int)
    let trunc := namelen ≥ buflen
    let name1 := if trunc then name.drop (namelen - buflen).toNat else name
    let namelen1 : Int := if trunc then buflen else namelen
    let write_slash : Int := if trunc then 0 else 1
    let buflen1 := buflen - (namelen1 + write_slash)
    if namelen1 + write_slash > buffer_offset then ⟨-ENAMETOOLONG, buf, bufptr, buflen1, 0, 0⟩
    else
      let offset := buffer_offset - (namelen1 + write_slash)
      if offset < 0 ∨ offset ≥ (MAX_BUF_LEN : Int) then ⟨-ENAMETOOLONG, buf, bufptr, buflen1, 0, 0⟩
      else
        let o := offset.toNat
        let b1 := if write_slash = 1 then bufWrite buf o 47 else buf
        let masked := namelen1.toNat % 256
        let b2 := bufCopy b1 (o + write_slash.toNat) name1 masked
        ⟨if write_slash = 1 then 0 else -ENAMETOOLONG, b2, o, buflen1, o, write_slash.toNat + masked⟩

/-- `struct mnt_path_data` (`lib/bpf_path.h`), with the mount/dentry
chain replaced by the remaining list of dentry names and with the
ghost instrumentation fields. -/
structure MntPathData where
  buf : Buf
  mnts : List (List Nat)
  bptr : Nat
  blen : Int
  resolved : Bool
  calls : Nat
  writes : List (Nat × Nat)

/-- `mnt_path_read` (`lib/bpf_path.h` lines 139-174).  Returns the
updated state and whether the walk stops (C return 1): on the root
dentry it marks `resolved`; otherwise it prepends the current
mount-point name and advances to the parent mount, stopping on a
`prepend_name` error with `resolved` still false. -/
def mnt_path_read (d0 : MntPathData) : MntPathData × Bool :=
  let d := { d0 with calls := d0.calls + 1 }
  match d.mnts with
  | [] => ({ d with resolved := true }, true)
  | name :: rest =>
      let r := prepend_name d.buf d.bptr d.blen name (name.length : Int)
      let d1 := { d with
        buf := r.buf, bptr := r.bufptr, blen := r.buflen,
        writes := if r.wlen = 0 then d.writes else (r.wstart, r.wlen) :: d.writes }
      if r.error ≠ 0 then (d1, true)
      else ({ d1 with mnts := rest }, false)

/-- The bounded walk of `prepend_mnt_path`: up to `fuel` rounds of
`mnt_path_read`, stopping early when it returns nonzero (both the
unrolled loop and the `bpf_loop` variant bound the trip count by
`PROBE_MNT_ITERATIONS`). -/
def mnt_walk : Nat → MntPathData → MntPathData
  | 0, d => d
  | n + 1, d =>
      let rs := mnt_path_read d
      if rs.2 then rs.1 else mnt_walk n rs.1

/-- Result of `prepend_mnt_path`: error code, final buffer, final
`*buffer` cursor and `*buflen`, plus the ghost fields. -/
structure MntPathResult where
  error : Int
  buf : Buf
  buffer : Nat
  buflen : Int
  resolved : Bool
  calls : Nat
  writes : List (Nat × Nat)

/-- `prepend_mnt_path` (`lib/bpf_path.h` lines 194-231): runs the
bounded walk; if the cursor never moved it reports length 0 with error
0, otherwise it reports the walk's cursor and remaining length, with
error `UNRESOLVED_PATH_COMPONENTS` when the walk did not conclude. -/
def prepend_mnt_path (mnts : List (List Nat)) (bf : Buf) (buffer : Nat) (buflen : Int) : MntPathResult :=
  let d0 : MntPathData := ⟨bf, mnts, buffer, buflen, false, 0, []⟩
  let d := mnt_walk PROBE_MNT_ITERATIONS d0
  if d.bptr = buffer then ⟨0, d.buf, buffer, 0, d.resolved, d.calls, d.writes⟩
  else
    ⟨if d.resolved then 0 else UNRESOLVED_PATH_COMPONENTS, d.buf, d.bptr, d.blen, d.resolved, d.calls, d.writes⟩

/-- Result of `mnt_path_local`: the returned pointer (offset into the
scratch buffer), the resolved length, and the error flag. -/
structure MntPathLocal where
  buf : Buf
  bufptr : Nat
  buflen : Int
  error : Int
  resolved : Bool
  calls : Nat
  writes : List (Nat × Nat)

/-- `__mnt_path_local` + `mnt_path_local` (`lib/bpf_path.h` lines
265-302): start the cursor at `buf + MAX_BUF_LEN` with
`buflen = MAX_BUF_LEN`, run `prepend_mnt_path`, then convert the
remaining length into the resolved-path length
(`MAX_BUF_LEN - buflen` when positive). -/
def mnt_path_local (mnts : List (List Nat)) (bf : Buf) : MntPathLocal :=
  let r := prepend_mnt_path mnts bf MAX_BUF_LEN (MAX_BUF_LEN : Int)
  let len := if r.buflen > 0 then (MAX_BUF_LEN : Int) - r.buflen else r.buflen
  ⟨r.buf, r.buffer, len, r.error, r.resolved, r.calls, r.writes⟩

/-- The true mount-point path of a hierarchy, as the byte string the
backward walk aims to build: for names `[c1, c2, ...]` listed
innermost first, the path is `.../c2/c1`. -/
def pathBytes : List (List Nat) → List Nat
  | [] => []
  | n :: rest => pathBytes rest ++ 47 :: n

/-- Kernel-guaranteed shape of dentry names: length at most 255
(`NAME_MAX`) and byte-valued characters. -/
def ValidNames (mnts : List (List Nat)) : Prop :=
  ∀ n ∈ mnts, n.length ≤ 255 ∧ ∀ b ∈ n, b < 256

/-- The write regions `ws` (most recent first) tile the interval
`[lo, hi)` exactly: each region starts where the interval currently
begins and the remaining regions tile the rest.  Tiling implies that
the regions are pairwise disjoint and lie inside `[lo, hi)`. -/
def writesTile : Nat → List (Nat × Nat) → Nat → Prop
  | lo, [], hi => lo = hi
  | lo, w :: rest, hi => w.1 = lo ∧ writesTile (lo + w.2) rest hi

/-! ### Concrete states and inputs used by the theorems -/

/-- Empty read/write map state. -/
def emptyVfsRwState : VfsRwState := ⟨fun _ => none, fun _ => none⟩

/-- Empty inode map state. -/
def emptyVfsInodeState : VfsInodeState := ⟨fun _ => none, fun _ => none, fun _ => none⟩

/-- Empty network map state. -/
def emptyNetState : NetState := ⟨fun _ => none, fun _ => none, fun _ => none, fun _ => none⟩

/-- Empty `socket_accumulator`. -/
def sockMapEmpty : SockMap := fun _ => none

/-- The 64-byte mount key holding `"/scratch"` (null padded). -/
def scratchMnt : List Nat := [47, 115, 99, 114, 97, 116, 99, 104] ++ List.replicate 56 0

/-- The 64-byte mount key holding `"/data/jobs"` (null padded). -/
def dataJobsMnt : List Nat := [47, 100, 97, 116, 97, 47, 106, 111, 98, 115] ++ List.replicate 54 0

/-- The 64-byte mount key holding `"/proc"` (null padded). -/
def procMnt : List Nat := [47, 112, 114, 111, 99] ++ List.replicate 59 0

/-- An `AF_INET` socket (addresses 1 and 2, ports 3 and 4) whose
cumulative counters are `segs_in = 10`, `segs_out = 20`, all byte
counters zero: the first observation of the spec's delta-tracking
example. -/
def sk_obs1 : SockData := ⟨2, 1, 2, 0, 0, 0, 0, 3, 4, 10, 20, 0, 0, 0, 0⟩

/-- Second observation of the same socket: counters `(15, 20)`. -/
def sk_obs2 : SockData := { sk_obs1 with segs_in := 15 }

/-- Third observation of the same socket: counters `(12, 20)` (the
cumulative counter went backwards: wraparound / socket reuse). -/
def sk_obs3 : SockData := { sk_obs1 with segs_in := 12 }

/-- Baseline table after the first observation. -/
def sockMap1 : SockMap := (read_conn_stats sk_obs1 sockMapEmpty).2

/-- Baseline table after the second observation. -/
def sockMap2 : SockMap := (read_conn_stats sk_obs2 sockMap1).2

/-- Baseline table after the third observation. -/
def sockMap3 : SockMap := (read_conn_stats sk_obs3 sockMap2).2

/-- An `AF_INET` socket with 7 ingress packets and 70 ingress bytes,
used to drive `handle_tcp_event`. -/
def sk_tcp : SockData := ⟨2, 1, 2, 0, 0, 0, 0, 3, 4, 7, 0, 70, 0, 0, 0⟩

/-- A connection tuple whose source is a well-formed IPv4-mapped IPv6
address embedding the IPv4 value `0xFFFF0000`, and whose destination
embeds `0x12345678`: after one normalization the source low half is
again `0xFFFF0000`, so the tuple is classified a second time. -/
def mapped_corner : conn_event :=
  ⟨0, 0xFFFF0000FFFF0000, 0, 0x12345678FFFF0000, 1000, 2000⟩

/-- "The mount paths begin with an ignored prefix": the byte lists of
`"/dev"`, `"/sys"` and `"/proc"`. -/
def startsWithIgnored (mnt : List Nat) : Prop :=
  [47, 100, 101, 118] <+: mnt ∨ [47, 115, 121, 115] <+: mnt ∨ [47, 112, 114, 111, 99] <+: mnt

/-- A mount buffer that starts with one of the ignored path literals
is flagged by `ignore_mnt`. -/
theorem ignore_mnt_of_startsWithIgnored (mnt : List Nat) (h : startsWithIgnored mnt) :
    ignore_mnt mnt = 1 := by
  rcases h with ⟨t, ht⟩ | ⟨t, ht⟩ | ⟨t, ht⟩ <;> subst ht <;> rfl

/-! ### Claim theorems (aggregation and socket side) -/

/-- C10: every `MODE_MKDIR` event is looked up and inserted in the
same table as `MODE_CREATE` events (`create_accumulator`), and every
`MODE_RMDIR` event in the same table as `MODE_UNLINK` events
(`unlink_accumulator`): `handle_inode_event` produces identical states
for the paired modes, so the create counters include mkdir calls and
the unlink counters include rmdir calls. -/
theorem mkdir_create_rmdir_unlink_share_tables :
    ∀ (cgid : Nat) (ret : Int) (st : VfsInodeState),
      handle_inode_event cgid ret .MODE_MKDIR st = handle_inode_event cgid ret .MODE_CREATE st ∧
      handle_inode_event cgid ret .MODE_RMDIR st = handle_inode_event cgid ret .MODE_UNLINK st :=
  fun _ _ _ => ⟨rfl, rfl⟩

/-- C5: a successful 100-byte write under cgroup 42 on mount
`"/scratch"` with no existing key inserts the record
`{bytes := 100, calls := 1, errors := 0}` seeded directly from the
increment; a subsequent write with negative return on the now-present
key adds per field, yielding `{bytes := 100, calls := 2, errors := 1}`;
and the freshly inserted record is never all-zero. -/
theorem rw_scenario_scratch_write :
    (handle_rw_event 42 scratchMnt 100 .MODE_WRITE emptyVfsRwState).write_accumulator
        ⟨42, scratchMnt⟩ = some ⟨100, 1, 0⟩ ∧
    (handle_rw_event 42 scratchMnt (-1) .MODE_WRITE
        (handle_rw_event 42 scratchMnt 100 .MODE_WRITE emptyVfsRwState)).write_accumulator
        ⟨42, scratchMnt⟩ = some ⟨100, 2, 1⟩ ∧
    ∀ ret : Int, rw_new_event ret ≠ ⟨0, 0, 0⟩ := by
  refine ⟨by decide, by decide, fun ret => ?_⟩
  unfold rw_new_event
  split <;> simp

/-- C3 (counterexample): `handle_tcp_event` does not drop a socket
event whose resolved cgroup identifier is 1 (the root cgroup): with an
empty state it creates an ingress-table entry for cid 1. -/
theorem tcp_event_root_cgroup_not_dropped :
    (handle_tcp_event 1 sk_tcp emptyNetState).ingress_accumulator
        ⟨1, IPPROTO_TCP, AF_INET⟩ = some ⟨7, 70⟩ ∧
    emptyNetState.ingress_accumulator ⟨1, IPPROTO_TCP, AF_INET⟩ = none := by
  exact ⟨by decide, rfl⟩

/-- C3 (amended): the VFS read/write and inode routines drop events
with cgroup identifier 0 or 1 before any table lookup or update; the
TCP and UDP socket routines drop only identifier 0 (identifier 1
proceeds to the aggregation tables). -/
theorem cgroup_guard_behaviour :
    (∀ (cgid : Nat) (mnt : List Nat) (ret : Int) (ty : vfs_mode) (st : VfsRwState),
        cgid % U32 = 0 ∨ cgid % U32 = 1 → handle_rw_event cgid mnt ret ty st = st) ∧
    (∀ (cgid : Nat) (ret : Int) (ty : vfs_mode) (st : VfsInodeState),
        cgid % U32 = 0 ∨ cgid % U32 = 1 → handle_inode_event cgid ret ty st = st) ∧
    (∀ (cgid : Nat) (sk : SockData) (st : NetState),
        cgid % U32 = 0 → handle_tcp_event cgid sk st = st) ∧
    (∀ (cgid : Nat) (ret : Int) (family : Nat) (ty : net_mode) (st : NetState),
        cgid % U32 = 0 → handle_udp_event cgid ret family ty st = st) := by
  refine ⟨fun cgid mnt ret ty st h => ?_, fun cgid ret ty st h => ?_,
          fun cgid sk st h => ?_, fun cgid ret family ty st h => ?_⟩
  · simp [handle_rw_event, h]
  · simp [handle_inode_event, h]
  · simp [handle_tcp_event, h]
  · unfold handle_udp_event
    split
    · rfl
    · simp [h]

/-- Witness for `cgroup_guard_behaviour` at identifiers 1, 0, 0, 0. -/
theorem cgroup_guard_behaviour_witness :
    handle_rw_event 1 scratchMnt 100 .MODE_WRITE emptyVfsRwState = emptyVfsRwState ∧
    handle_inode_event 0 0 .MODE_OPEN emptyVfsInodeState = emptyVfsInodeState ∧
    handle_tcp_event 0 sk_tcp emptyNetState = emptyNetState ∧
    handle_udp_event 0 5 AF_INET .MODE_INGRESS emptyNetState = emptyNetState :=
  ⟨cgroup_guard_behaviour.1 1 scratchMnt 100 .MODE_WRITE emptyVfsRwState (Or.inr (by decide)),
   cgroup_guard_behaviour.2.1 0 0 .MODE_OPEN emptyVfsInodeState (Or.inl (by decide)),
   cgroup_guard_behaviour.2.2.1 0 sk_tcp emptyNetState (by decide),
   cgroup_guard_behaviour.2.2.2 0 5 AF_INET .MODE_INGRESS emptyNetState (by decide)⟩

/-- C4 (counterexample): normalization is not idempotent on every
classified tuple: `mapped_corner` is classified by
`is_ipv4_mapped_ipv6`, yet applying the normalization of
`read_conn_tuple` twice changes the tuple again (the extracted IPv4
value `0xFFFF0000` re-triggers the classification and is zeroed). -/
theorem normalize_mapped_not_idempotent :
    is_ipv4_mapped_ipv6 mapped_corner.saddr_h mapped_corner.saddr_l
        mapped_corner.daddr_h mapped_corner.daddr_l = true ∧
    normalize_mapped (normalize_mapped mapped_corner) ≠ normalize_mapped mapped_corner := by
  decide

/-- C4 (amended): for every tuple classified as IPv4-mapped IPv6 in
which neither embedded IPv4 value (the upper 32 bits of the low
address halves) equals `0xFFFF0000`, the normalization of
`read_conn_tuple` is idempotent, and it never changes the ports. -/
theorem normalize_mapped_idempotent :
    ∀ t : conn_event,
      is_ipv4_mapped_ipv6 t.saddr_h t.saddr_l t.daddr_h t.daddr_l = true →
      (t.saddr_l / U32) % U32 ≠ 4294901760 →
      (t.daddr_l / U32) % U32 ≠ 4294901760 →
      normalize_mapped (normalize_mapped t) = normalize_mapped t ∧
      (normalize_mapped t).sport = t.sport ∧ (normalize_mapped t).dport = t.dport := by
  intro t h h1 h2
  have hpos : 0 < U32 := by decide
  have hA : (t.saddr_l / U32) % U32 % U32 = (t.saddr_l / U32) % U32 :=
    Nat.mod_eq_of_lt (Nat.mod_lt _ hpos)
  have hB : (t.daddr_l / U32) % U32 % U32 = (t.daddr_l / U32) % U32 :=
    Nat.mod_eq_of_lt (Nat.mod_lt _ hpos)
  have ht : normalize_mapped t =
      { t with saddr_h := 0, daddr_h := 0,
               saddr_l := (t.saddr_l / U32) % U32,
               daddr_l := (t.daddr_l / U32) % U32 } := by
    unfold normalize_mapped
    rw [if_pos h]
  refine ⟨?_, by rw [ht], by rw [ht]⟩
  rw [ht]
  unfold normalize_mapped
  split
  · next hc =>
      exfalso
      simp only [is_ipv4_mapped_ipv6] at hc
      simp [hA, hB, h1, h2] at hc
  · rfl

/-- A well-formed IPv4-mapped-IPv6 tuple embedding the IPv4 values
`0x01020304` and `0x05060708`. -/
def mapped_ok : conn_event := ⟨0, 0x01020304FFFF0000, 0, 0x05060708FFFF0000, 10, 20⟩

/-- Witness for `normalize_mapped_idempotent` at `mapped_ok`. -/
theorem normalize_mapped_idempotent_witness :
    normalize_mapped (normalize_mapped mapped_ok) = normalize_mapped mapped_ok ∧
    (normalize_mapped mapped_ok).sport = mapped_ok.sport ∧
    (normalize_mapped mapped_ok).dport = mapped_ok.dport :=
  normalize_mapped_idempotent mapped_ok (by decide) (by decide) (by decide)

/-- C2 (counterexample): the delta tracker does not clamp.  For the
tuple of `sk_obs1` observed with counters `(10, 20)`, `(15, 20)`,
`(12, 20)`: the first increment is the counters verbatim, the second
is `(5, 0)`, but the third is `(2^64 - 3, 0)` — the plain `__u64`
wraparound of `12 - 15` (the bit pattern of `-3`), which even exceeds
the current value 12, so no clamping to a small non-negative value
takes place.  The baseline does reset to `(12, 20)`. -/
theorem conn_stats_wraparound_not_clamped :
    (read_conn_stats sk_obs1 sockMapEmpty).1 = some ⟨10, 20, 0, 0, 0, 0⟩ ∧
    sockMap1 ⟨0, 1, 0, 2, 3, 4⟩ = some ⟨10, 20, 0, 0, 0, 0⟩ ∧
    (read_conn_stats sk_obs2 sockMap1).1 = some ⟨5, 0, 0, 0, 0, 0⟩ ∧
    sockMap2 ⟨0, 1, 0, 2, 3, 4⟩ = some ⟨15, 20, 0, 0, 0, 0⟩ ∧
    (read_conn_stats sk_obs3 sockMap2).1 = some ⟨18446744073709551613, 0, 0, 0, 0, 0⟩ ∧
    sockMap3 ⟨0, 1, 0, 2, 3, 4⟩ = some ⟨12, 20, 0, 0, 0, 0⟩ ∧
    ¬(18446744073709551613 ≤ 12) := by decide

/-- C2 (amended): for every socket whose tuple resolves, a first
observation (no baseline) returns the current cumulative counters
verbatim and stores them as the baseline; a later observation returns
`current - stored` per field as plain `__u64` (mod 2^64) subtraction —
a current value lower than the stored baseline yields the wrapped
difference, not a clamped value — and overwrites the baseline with the
current cumulative values. -/
theorem read_conn_stats_delta_tracking :
    ∀ (sk : SockData) (m : SockMap),
      (read_conn_tuple ⟨0, 0, 0, 0, 0, 0⟩ sk).2 = 0 →
      (m (read_conn_tuple ⟨0, 0, 0, 0, 0, 0⟩ sk).1 = none →
          (read_conn_stats sk m).1 = some (current_conn_stats sk) ∧
          (read_conn_stats sk m).2 (read_conn_tuple ⟨0, 0, 0, 0, 0, 0⟩ sk).1
            = some (current_conn_stats sk)) ∧
      (∀ s, m (read_conn_tuple ⟨0, 0, 0, 0, 0, 0⟩ sk).1 = some s →
          (read_conn_stats sk m).1 = some
              ⟨u64sub (current_conn_stats sk).packets_in s.packets_in,
               u64sub (current_conn_stats sk).packets_out s.packets_out,
               u64sub (current_conn_stats sk).bytes_received s.bytes_received,
               u64sub (current_conn_stats sk).bytes_sent s.bytes_sent,
               u64sub (current_conn_stats sk).total_retrans s.total_retrans,
               u64sub (current_conn_stats sk).bytes_retrans s.bytes_retrans⟩ ∧
          (read_conn_stats sk m).2 (read_conn_tuple ⟨0, 0, 0, 0, 0, 0⟩ sk).1
            = some (current_conn_stats sk)) := by
  refine fun sk m h => ⟨fun hm => ?_, fun s hm => ?_⟩ <;>
    simp [read_conn_stats, h, hm]

/-- Witness for `read_conn_stats_delta_tracking`: first and second
observations of the concrete socket. -/
theorem read_conn_stats_delta_tracking_witness :
    ((read_conn_stats sk_obs1 sockMapEmpty).1 = some (current_conn_stats sk_obs1) ∧
      (read_conn_stats sk_obs1 sockMapEmpty).2 (read_conn_tuple ⟨0, 0, 0, 0, 0, 0⟩ sk_obs1).1
        = some (current_conn_stats sk_obs1)) ∧
    ((read_conn_stats sk_obs2 sockMap1).1 = some
        ⟨u64sub (current_conn_stats sk_obs2).packets_in 10,
         u64sub (current_conn_stats sk_obs2).packets_out 20,
         u64sub (current_conn_stats sk_obs2).bytes_received 0,
         u64sub (current_conn_stats sk_obs2).bytes_sent 0,
         u64sub (current_conn_stats sk_obs2).total_retrans 0,
         u64sub (current_conn_stats sk_obs2).bytes_retrans 0⟩) :=
  ⟨(read_conn_stats_delta_tracking sk_obs1 sockMapEmpty (by decide)).1 (by decide),
   ((read_conn_stats_delta_tracking sk_obs2 sockMap1 (by decide)).2
      ⟨10, 20, 0, 0, 0, 0⟩ (by decide)).1⟩

/-- C8 (counterexample): a losing `BPF_NOEXIST` insert does not
reapply its increment.  Another writer inserts `{5, 1, 0}` between the
lookup and the insert; the final record is `{5, 1, 0}`, not the
record `{105, 2, 0}` that applying the 100-byte increment to the
now-present record would produce. -/
theorem raced_insert_increment_lost :
    (handle_rw_event_raced 42 scratchMnt 100 .MODE_WRITE (some ⟨5, 1, 0⟩)
        emptyVfsRwState).write_accumulator ⟨42, scratchMnt⟩ = some ⟨5, 1, 0⟩ ∧
    rw_apply 100 ⟨5, 1, 0⟩ = ⟨105, 2, 0⟩ ∧
    (handle_rw_event_raced 42 scratchMnt 100 .MODE_WRITE (some ⟨5, 1, 0⟩)
        emptyVfsRwState).write_accumulator ⟨42, scratchMnt⟩ ≠ some (rw_apply 100 ⟨5, 1, 0⟩) := by
  decide

/-- C8 (amended): whenever the `BPF_NOEXIST` insert of a fresh record
loses the race to another writer, the routine returns without applying
its increment — the now-present record keeps the other writer's value
and the losing writer's increment is dropped. -/
theorem raced_noexist_insert_drops_increment :
    ∀ (cgid : Nat) (mnt : List Nat) (ret : Int) (r : vfs_rw_event) (st : VfsRwState),
      ¬(cgid % U32 = 0 ∨ cgid % U32 = 1) →
      mnt.headD 0 ≠ 0 →
      ignore_mnt mnt ≠ 1 →
      st.write_accumulator ⟨cgid % U32, mnt⟩ = none →
      (handle_rw_event_raced cgid mnt ret .MODE_WRITE (some r) st).write_accumulator
          ⟨cgid % U32, mnt⟩ = some r := by
  intro cgid mnt ret r st h0 h1 h2 hm
  have h1' : ¬(mnt.head?.getD 0 = 0) := by simpa using h1
  simp [handle_rw_event_raced, h0, h1', h2, hm, vfsRwUpd]

/-- Witness for `raced_noexist_insert_drops_increment`. -/
theorem raced_noexist_insert_drops_increment_witness :
    (handle_rw_event_raced 42 scratchMnt 7 .MODE_WRITE (some ⟨9, 2, 1⟩)
        emptyVfsRwState).write_accumulator ⟨42 % U32, scratchMnt⟩ = some ⟨9, 2, 1⟩ :=
  raced_noexist_insert_drops_increment 42 scratchMnt 7 ⟨9, 2, 1⟩ emptyVfsRwState
    (by decide) (by decide) (by decide) (by decide)

/-- C7: VFS events whose resolved mount path begins with an ignored
literal (`"/dev"`, `"/sys"`, `"/proc"`) leave the read/write state
completely unchanged (the `ignore_mnt` check runs before any table
access), while the non-ignored mount path `"/data/jobs"` proceeds to
the table update. -/
theorem ignored_mounts_never_update_tables :
    (∀ (cgid : Nat) (mnt : List Nat) (ret : Int) (ty : vfs_mode) (st : VfsRwState),
        startsWithIgnored mnt → handle_rw_event cgid mnt ret ty st = st) ∧
    (handle_rw_event 42 dataJobsMnt 100 .MODE_WRITE emptyVfsRwState).write_accumulator
        ⟨42, dataJobsMnt⟩ = some ⟨100, 1, 0⟩ := by
  constructor
  · intro cgid mnt ret ty st h
    have hig := ignore_mnt_of_startsWithIgnored mnt h
    by_cases h0 : (cgid % U32 = 0 ∨ cgid % U32 = 1)
    · simp [handle_rw_event, h0]
    · simp [handle_rw_event, h0, hig]
  · decide

/-- Witness for `ignored_mounts_never_update_tables` at `"/proc"`. -/
theorem ignored_mounts_never_update_tables_witness :
    handle_rw_event 42 procMnt 100 .MODE_WRITE emptyVfsRwState = emptyVfsRwState :=
  ignored_mounts_never_update_tables.1 42 procMnt 100 .MODE_WRITE emptyVfsRwState
    (Or.inr (Or.inr ⟨List.replicate 59 0, rfl⟩))

/-! ### Claim theorems (mount-path side) -/

/-- The all-zero scratch buffer. -/
def zeroBuf : Buf := fun _ => 0

/-- A depth-2 hierarchy with two 200-byte component names: its mount
path is 402 bytes long. -/
def deepNames : List (List Nat) := [List.replicate 200 97, List.replicate 200 98]

/-- C6: `mnt_path_local` documents its output length as
`0 < buflen <= 256`, but the walk starts with the full
`MAX_BUF_LEN = 4096` budget, so a depth-2 hierarchy with two 200-byte
names yields length 402 with error 0 — the code contradicts its own
documented bound. -/
theorem mnt_path_local_length_can_exceed_256 :
    (mnt_path_local deepNames zeroBuf).buflen = 402 ∧
    ¬((mnt_path_local deepNames zeroBuf).buflen ≤ 256) ∧
    (mnt_path_local deepNames zeroBuf).error = 0 := by decide

/-- An 8-deep mount hierarchy of single-letter names. -/
def depth8Names : List (List Nat) := List.replicate 8 [97]

/-- C1 (counterexample): a hierarchy of depth exactly 8 is NOT
resolved: all 8 walk rounds are consumed by prepends, the root is
never observed, and `mnt_path_local` reports
`UNRESOLVED_PATH_COMPONENTS` (Truncated), not 0 (Resolved). -/
theorem depth8_hierarchy_truncated :
    depth8Names.length = 8 ∧
    (mnt_path_local depth8Names zeroBuf).error = UNRESOLVED_PATH_COMPONENTS ∧
    (mnt_path_local depth8Names zeroBuf).error ≠ 0 ∧
    (mnt_path_local depth8Names zeroBuf).resolved = false := by decide

/-! ### Helper lemmas for the mount-path walk -/

theorem pathBytes_append (xs ys : List (List Nat)) :
    pathBytes (xs ++ ys) = pathBytes ys ++ pathBytes xs := by
  induction xs with
  | nil => simp [pathBytes]
  | cons c rest ih => simp [pathBytes, ih]

theorem pathBytes_length_le (xs : List (List Nat)) (h : ∀ n ∈ xs, n.length ≤ 255) :
    (pathBytes xs).length ≤ 256 * xs.length := by
  induction xs with
  | nil => simp [pathBytes]
  | cons c rest ih =>
      have hc := h c (by simp)
      have hr := ih (fun n hn => h n (by simp [hn]))
      simp only [pathBytes, List.length_append, List.length_cons, List.length]
      omega

theorem pathBytes_pos (x : List Nat) (xs : List (List Nat)) :
    0 < (pathBytes (x :: xs)).length := by
  simp [pathBytes]

theorem writesTile_le (lo hi : Nat) (ws : List (Nat × Nat)) (h : writesTile lo ws hi) :
    lo ≤ hi := by
  induction ws generalizing lo with
  | nil => simp [writesTile] at h; omega
  | cons w rest ih =>
      obtain ⟨-, h2⟩ := h
      have := ih (lo + w.2) h2
      omega

theorem writesTile_bounds (lo hi : Nat) (ws : List (Nat × Nat)) (h : writesTile lo ws hi) :
    ∀ w ∈ ws, lo ≤ w.1 ∧ w.1 + w.2 ≤ hi := by
  induction ws generalizing lo with
  | nil => simp
  | cons w rest ih =>
      obtain ⟨h1, h2⟩ := h
      intro v hv
      rcases List.mem_cons.mp hv with hv | hv
      · subst hv
        have := writesTile_le _ _ _ h2
        omega
      · have := ih (lo + w.2) h2 v hv
        omega

theorem writesTile_append (lo mid l : Nat) (ws : List (Nat × Nat))
    (h : writesTile lo ws mid) :
    writesTile lo (ws ++ [(mid, l)]) (mid + l) := by
  induction ws generalizing lo with
  | nil => simp [writesTile] at h ⊢; omega
  | cons w rest ih =>
      obtain ⟨h1, h2⟩ := h
      exact ⟨h1, ih (lo + w.2) h2⟩

/-- `prepend_name` under the conditions the bounded walk guarantees
(dentry name of kernel-legal length, byte-valued characters, cursor
strictly beyond the first 256 bytes and inside `MAX_BUF_LEN`, and
`buflen` equal to the cursor offset): it succeeds, moves the cursor
back by `name.length + 1`, writes exactly `'/'` followed by the name
there, and touches nothing else. -/
theorem prepend_name_ok (buf : Buf) (bptr : Nat) (name : List Nat)
    (hlen : name.length ≤ 255) (hbytes : ∀ b ∈ name, b < 256)
    (hlo : 256 < bptr) (hhi : bptr ≤ MAX_BUF_LEN) :
    (prepend_name buf bptr (bptr : Int) name (name.length : Int)).error = 0 ∧
    (prepend_name buf bptr (bptr : Int) name (name.length : Int)).bufptr
      = bptr - (name.length + 1) ∧
    (prepend_name buf bptr (bptr : Int) name (name.length : Int)).buflen
      = ((bptr - (name.length + 1) : Nat) : Int) ∧
    (prepend_name buf bptr (bptr : Int) name (name.length : Int)).wstart
      = bptr - (name.length + 1) ∧
    (prepend_name buf bptr (bptr : Int) name (name.length : Int)).wlen
      = name.length + 1 ∧
    (∀ i < name.length + 1,
      (prepend_name buf bptr (bptr : Int) name (name.length : Int)).buf
          (bptr - (name.length + 1) + i) = (47 :: name).getD i 0) ∧
    (∀ j, j < bptr - (name.length + 1) ∨ bptr ≤ j →
      (prepend_name buf bptr (bptr : Int) name (name.length : Int)).buf j = buf j) := by
  have hc1 : ¬((name.length : Int) < 0 ∨ (name.length : Int) > 256) := by omega
  have htr : ¬((name.length : Int) ≥ (bptr : Int)) := by omega
  have hc2 : ¬((name.length : Int) + 1 > (bptr : Int)) := by omega
  have hc3 : ¬((bptr : Int) - ((name.length : Int) + 1) < 0 ∨
      (bptr : Int) - ((name.length : Int) + 1) ≥ (MAX_BUF_LEN : Int)) := by
    unfold MAX_BUF_LEN at hhi ⊢
    omega
  have ho : ((bptr : Int) - ((name.length : Int) + 1)).toNat = bptr - (name.length + 1) := by
    omega
  have hone : ((1 : Int)).toNat = 1 := rfl
  have hmask : (name.length : Int).toNat % 256 = name.length := by omega
  have hEq : prepend_name buf bptr (bptr : Int) name (name.length : Int) =
      ⟨0, bufCopy (bufWrite buf (bptr - (name.length + 1)) 47) (bptr - (name.length + 1) + 1)
            name name.length,
        bptr - (name.length + 1), (bptr : Int) - ((name.length : Int) + 1),
        bptr - (name.length + 1), 1 + name.length⟩ := by
    simp only [prepend_name]
    rw [if_neg hc1, if_neg htr, if_neg htr, if_neg htr, if_neg hc2, if_neg hc3,
        if_pos (rfl : (1 : Int) = 1), if_pos (rfl : (1 : Int) = 1), ho, hone, hmask]
  rw [hEq]
  refine ⟨rfl, rfl, ?_, rfl, ?_, ?_, ?_⟩
  · show (bptr : Int) - ((name.length : Int) + 1) = ((bptr - (name.length + 1) : Nat) : Int)
    omega
  · show 1 + name.length = name.length + 1
    omega
  · intro i hi
    match i with
    | 0 =>
        show bufCopy (bufWrite buf (bptr - (name.length + 1)) 47)
            (bptr - (name.length + 1) + 1) name name.length (bptr - (name.length + 1) + 0) = 47
        unfold bufCopy bufWrite
        rw [if_neg (by omega), if_pos (by omega)]
    | j + 1 =>
        have hj : j < name.length := by omega
        show bufCopy (bufWrite buf (bptr - (name.length + 1)) 47)
            (bptr - (name.length + 1) + 1) name name.length
            (bptr - (name.length + 1) + (j + 1)) = (47 :: name).getD (j + 1) 0
        unfold bufCopy
        rw [if_pos (by omega)]
        have hidx : bptr - (name.length + 1) + (j + 1) - (bptr - (name.length + 1) + 1) = j := by
          omega
        rw [hidx, List.getD_cons_succ]
        have hmem : name.getD j 0 ∈ name := by
          rw [List.getD_eq_getElem name 0 hj]
          exact List.getElem_mem hj
        exact Nat.mod_eq_of_lt (hbytes _ hmem)
  · intro j hj
    show bufCopy (bufWrite buf (bptr - (name.length + 1)) 47)
        (bptr - (name.length + 1) + 1) name name.length j = buf j
    unfold bufCopy bufWrite
    rw [if_neg (by omega), if_neg (by omega)]

/-- The bounded walk under kernel-valid names, starting from a cursor
equal to the remaining length: it prepends the first
`min fuel mnts.length` components (innermost first), resolves exactly
when the hierarchy is shorter than the fuel, counts one
`mnt_path_read` round per prepended component plus one for the root
detection, writes the path bytes exactly at the final cursor, touches
no other byte, and its ghost write regions tile the written interval. -/
theorem mnt_walk_spec (fuel : Nat) :
    ∀ (mnts : List (List Nat)) (buf : Buf) (bptr calls : Nat) (writes : List (Nat × Nat))
      (w : MntPathData),
      ValidNames mnts → 257 * fuel ≤ bptr → bptr ≤ MAX_BUF_LEN →
      w = mnt_walk fuel ⟨buf, mnts, bptr, (bptr : Int), false, calls, writes⟩ →
      w.bptr = bptr - (pathBytes (mnts.take fuel)).length ∧
      w.blen = ((bptr - (pathBytes (mnts.take fuel)).length : Nat) : Int) ∧
      w.resolved = decide (mnts.length < fuel) ∧
      w.calls = calls + min mnts.length fuel + (if mnts.length < fuel then 1 else 0) ∧
      (∀ i < (pathBytes (mnts.take fuel)).length,
        w.buf (bptr - (pathBytes (mnts.take fuel)).length + i)
          = (pathBytes (mnts.take fuel)).getD i 0) ∧
      (∀ j, j < bptr - (pathBytes (mnts.take fuel)).length ∨ bptr ≤ j → w.buf j = buf j) ∧
      (∃ nw, w.writes = nw ++ writes ∧
        writesTile (bptr - (pathBytes (mnts.take fuel)).length) nw bptr) := by
  induction fuel with
  | zero =>
      intro mnts buf bptr calls writes w hval hfuel hhi hw
      subst hw
      refine ⟨by simp [mnt_walk, pathBytes], by simp [mnt_walk, pathBytes],
        by simp [mnt_walk], by simp [mnt_walk], ?_, ?_, ⟨[], by simp [mnt_walk], ?_⟩⟩
      · intro i hi
        simp [pathBytes] at hi
      · intro j hj
        simp [mnt_walk]
      · simp [pathBytes, writesTile]
  | succ f ih =>
      intro mnts buf bptr calls writes w hval hfuel hhi hw
      match mnts with
      | [] =>
          subst hw
          refine ⟨by simp [mnt_walk, mnt_path_read, pathBytes],
            by simp [mnt_walk, mnt_path_read, pathBytes],
            by simp [mnt_walk, mnt_path_read],
            by simp [mnt_walk, mnt_path_read],
            ?_, ?_, ⟨[], by simp [mnt_walk, mnt_path_read], ?_⟩⟩
          · intro i hi
            simp [pathBytes] at hi
          · intro j hj
            simp [mnt_walk, mnt_path_read]
          · simp [pathBytes, writesTile]
      | c :: rest =>
          have hc := hval c (by simp)
          have hlo : 256 < bptr := by omega
          obtain ⟨he, hb, hl, hws, hwl, hcontent, hframe⟩ :=
            prepend_name_ok buf bptr c hc.1 hc.2 hlo hhi
          have hstep : mnt_walk (f + 1) ⟨buf, c :: rest, bptr, (bptr : Int), false, calls, writes⟩
              = mnt_walk f ⟨(prepend_name buf bptr (bptr : Int) c (c.length : Int)).buf, rest,
                  bptr - (c.length + 1), ((bptr - (c.length + 1) : Nat) : Int), false, calls + 1,
                  (bptr - (c.length + 1), c.length + 1) :: writes⟩ := by
            simp only [mnt_walk, mnt_path_read]
            rw [hb, hl, hws, hwl, he]
            simp
          rw [hstep] at hw
          have hval' : ValidNames rest := fun n hn => hval n (by simp [hn])
          have hfuel' : 257 * f ≤ bptr - (c.length + 1) := by
            have := hc.1
            omega
          have hhi' : bptr - (c.length + 1) ≤ MAX_BUF_LEN :=
            le_trans (Nat.sub_le _ _) hhi
          obtain ⟨ihb, ihl, ihres, ihcalls, ihcontent, ihframe, nw, ihw, ihtile⟩ :=
            ih rest _ (bptr - (c.length + 1)) (calls + 1)
              ((bptr - (c.length + 1), c.length + 1) :: writes) w hval' hfuel' hhi' hw
          have hL : (pathBytes ((c :: rest).take (f + 1))).length
              = (pathBytes (rest.take f)).length + (c.length + 1) := by
            simp [List.take_succ_cons, pathBytes]
          have hLle : (pathBytes (rest.take f)).length ≤ 256 * f := by
            have h1 := pathBytes_length_le (rest.take f)
              (fun n hn => (hval' n (List.mem_of_mem_take hn)).1)
            have h2 : (rest.take f).length ≤ f := by
              simp [List.length_take]
            calc (pathBytes (rest.take f)).length ≤ 256 * (rest.take f).length := h1
              _ ≤ 256 * f := Nat.mul_le_mul_left _ h2
          have hclen := hc.1
          refine ⟨?_, ?_, ?_, ?_, ?_, ?_, ?_⟩
          · rw [ihb, hL]
            omega
          · rw [ihl, hL]
            congr 1
            omega
          · rw [ihres]
            exact decide_eq_decide.mpr (by simp [Nat.succ_lt_succ_iff])
          · rw [ihcalls]
            simp only [List.length_cons]
            by_cases hlt : rest.length < f
            · simp [hlt, Nat.succ_lt_succ_iff]
              omega
            · simp [hlt, Nat.succ_lt_succ_iff]
              omega
          · intro i hi
            rw [hL] at hi ⊢
            by_cases hi' : i < (pathBytes (rest.take f)).length
            · have hpos : bptr - ((pathBytes (rest.take f)).length + (c.length + 1)) + i
                  = bptr - (c.length + 1) - (pathBytes (rest.take f)).length + i := by
                omega
              rw [hpos]
              rw [ihcontent i hi']
              rw [List.take_succ_cons, pathBytes, List.getD_append _ _ _ _ hi']
            · have hj : i - (pathBytes (rest.take f)).length < c.length + 1 := by omega
              have hpos : bptr - ((pathBytes (rest.take f)).length + (c.length + 1)) + i
                  = bptr - (c.length + 1) + (i - (pathBytes (rest.take f)).length) := by
                omega
              rw [hpos]
              have hfr := ihframe (bptr - (c.length + 1) + (i - (pathBytes (rest.take f)).length))
                (Or.inr (by omega))
              rw [hfr]
              rw [hcontent _ hj]
              rw [List.take_succ_cons, pathBytes,
                List.getD_append_right _ _ _ _ (by omega)]
          · intro j hj
            rw [hL] at hj
            rcases hj with hj | hj
            · have h1 := ihframe j (Or.inl (by omega))
              rw [h1]
              exact hframe j (Or.inl (by omega))
            · have h1 := ihframe j (Or.inr (by omega))
              rw [h1]
              exact hframe j (Or.inr (by omega))
          · refine ⟨nw ++ [(bptr - (c.length + 1), c.length + 1)], ?_, ?_⟩
            · rw [ihw, List.append_assoc]
              rfl
            · have htile := writesTile_append _ _ (c.length + 1) nw ihtile
              have h1 : bptr - (c.length + 1) - (pathBytes (rest.take f)).length
                  = bptr - (pathBytes ((c :: rest).take (f + 1))).length := by
                rw [hL]; omega
              have h2 : bptr - (c.length + 1) + (c.length + 1) = bptr := by omega
              rw [h1, h2] at htile
              exact htile

theorem mnt_path_read_calls (d : MntPathData) : (mnt_path_read d).1.calls = d.calls + 1 := by
  rcases d with ⟨buf, mnts, bptr, blen, res, calls, writes⟩
  cases mnts with
  | nil => rfl
  | cons c rest =>
      simp only [mnt_path_read]
      split <;> rfl

theorem mnt_path_read_cons (d : MntPathData) (c : List Nat) (rest : List (List Nat))
    (h : d.mnts = c :: rest) :
    (mnt_path_read d).1.resolved = d.resolved ∧
    ((mnt_path_read d).2 = false → (mnt_path_read d).1.mnts = rest) := by
  rcases d with ⟨buf, mnts, bptr, blen, res, calls, writes⟩
  simp only at h
  subst h
  simp only [mnt_path_read]
  split
  · exact ⟨rfl, by simp⟩
  · exact ⟨rfl, fun _ => rfl⟩

/-- The walk performs at most `fuel` rounds of `mnt_path_read`. -/
theorem mnt_walk_calls_le (fuel : Nat) :
    ∀ d : MntPathData, (mnt_walk fuel d).calls ≤ d.calls + fuel := by
  induction fuel with
  | zero => intro d; simp [mnt_walk]
  | succ f ih =>
      intro d
      have hc := mnt_path_read_calls d
      have h1 := ih (mnt_path_read d).1
      simp only [mnt_walk]
      cases hstop : (mnt_path_read d).2
      · simp only [hstop, Bool.false_eq_true, if_false]
        omega
      · simp [hstop]
        omega

/-- A hierarchy at least as deep as the remaining fuel is never marked
resolved: resolution requires observing the root dentry, which costs a
round of its own. -/
theorem mnt_walk_unresolved (fuel : Nat) :
    ∀ d : MntPathData, d.resolved = false → fuel ≤ d.mnts.length →
      (mnt_walk fuel d).resolved = false := by
  induction fuel with
  | zero => intro d h _; simpa [mnt_walk] using h
  | succ f ih =>
      intro d h hlen
      match hm : d.mnts with
      | [] => rw [hm] at hlen; simp at hlen
      | c :: rest =>
          obtain ⟨h1, h2⟩ := mnt_path_read_cons d c rest hm
          simp only [mnt_walk]
          by_cases hstop : (mnt_path_read d).2
          · simp only [hstop, if_true]
            rw [h1, h]
          · simp only [hstop, if_false]
            apply ih
            · rw [h1, h]
            · rw [h2 (by simpa using hstop)]
              rw [hm] at hlen
              simp at hlen
              omega

/-- C9: for every input, `mnt_path_local` executes at most
`PROBE_MNT_ITERATIONS = 8` rounds of `mnt_path_read` (the walk itself
is a total function, so it always terminates), and a hierarchy of
depth at least 8 — which would need more rounds — is left with
`resolved = false` (truncated) rather than walked further. -/
theorem walk_iteration_bound :
    ∀ (mnts : List (List Nat)) (bf : Buf),
      (mnt_path_local mnts bf).calls ≤ PROBE_MNT_ITERATIONS ∧
      (PROBE_MNT_ITERATIONS ≤ mnts.length → (mnt_path_local mnts bf).resolved = false) := by
  intro mnts bf
  have hcall := mnt_walk_calls_le PROBE_MNT_ITERATIONS
    ⟨bf, mnts, MAX_BUF_LEN, (MAX_BUF_LEN : Int), false, 0, []⟩
  have hcalls_eq : (mnt_path_local mnts bf).calls
      = (mnt_walk PROBE_MNT_ITERATIONS
          ⟨bf, mnts, MAX_BUF_LEN, (MAX_BUF_LEN : Int), false, 0, []⟩).calls := by
    simp only [mnt_path_local, prepend_mnt_path]
    split <;> rfl
  have hres_eq : (mnt_path_local mnts bf).resolved
      = (mnt_walk PROBE_MNT_ITERATIONS
          ⟨bf, mnts, MAX_BUF_LEN, (MAX_BUF_LEN : Int), false, 0, []⟩).resolved := by
    simp only [mnt_path_local, prepend_mnt_path]
    split <;> rfl
  constructor
  · rw [hcalls_eq]
    simpa using hcall
  · intro h8
    rw [hres_eq]
    exact mnt_walk_unresolved PROBE_MNT_ITERATIONS _ rfl h8

/-- Witness for `walk_iteration_bound` at the depth-8 hierarchy. -/
theorem walk_iteration_bound_witness :
    (mnt_path_local depth8Names zeroBuf).calls ≤ PROBE_MNT_ITERATIONS ∧
    (mnt_path_local depth8Names zeroBuf).resolved = false :=
  ⟨(walk_iteration_bound depth8Names zeroBuf).1,
   (walk_iteration_bound depth8Names zeroBuf).2 (by decide)⟩

/-- C1 (amended): for every kernel-valid mount hierarchy, depth at
most 7 resolves with error 0 and the buffer holding exactly the true
mount-point path; depth at least 8 yields `UNRESOLVED_PATH_COMPONENTS`
(Truncated) with the buffer holding the non-empty suffix of the true
path formed by the 8 innermost components; and in all cases every
write lands inside the `MAX_BUF_LEN` region at or after the returned
pointer, with the written regions tiling (hence never overlapping). -/
theorem mount_path_resolution :
    ∀ (mnts : List (List Nat)) (bf : Buf), ValidNames mnts →
      (mnts.length ≤ 7 →
        (mnt_path_local mnts bf).error = 0 ∧
        (mnt_path_local mnts bf).buflen = ((pathBytes mnts).length : Int) ∧
        ∀ i < (pathBytes mnts).length,
          (mnt_path_local mnts bf).buf ((mnt_path_local mnts bf).bufptr + i)
            = (pathBytes mnts).getD i 0) ∧
      (PROBE_MNT_ITERATIONS ≤ mnts.length →
        (mnt_path_local mnts bf).error = UNRESOLVED_PATH_COMPONENTS ∧
        (mnt_path_local mnts bf).buflen
          = ((pathBytes (mnts.take PROBE_MNT_ITERATIONS)).length : Int) ∧
        0 < (mnt_path_local mnts bf).buflen ∧
        (∀ i < (pathBytes (mnts.take PROBE_MNT_ITERATIONS)).length,
          (mnt_path_local mnts bf).buf ((mnt_path_local mnts bf).bufptr + i)
            = (pathBytes (mnts.take PROBE_MNT_ITERATIONS)).getD i 0) ∧
        pathBytes (mnts.take PROBE_MNT_ITERATIONS) <:+ pathBytes mnts) ∧
      (writesTile (mnt_path_local mnts bf).bufptr (mnt_path_local mnts bf).writes MAX_BUF_LEN ∧
        ∀ v ∈ (mnt_path_local mnts bf).writes,
          (mnt_path_local mnts bf).bufptr ≤ v.1 ∧ v.1 + v.2 ≤ MAX_BUF_LEN) := by
  intro mnts bf hval
  by_cases hnil : mnts = []
  · subst hnil
    have hml0 : mnt_path_local [] bf = ⟨bf, MAX_BUF_LEN, 0, 0, true, 1, []⟩ := rfl
    refine ⟨fun _ => ⟨?_, ?_, ?_⟩, fun h8 => ?_, ?_, ?_⟩
    · rw [hml0]
    · rw [hml0]; rfl
    · intro i hi
      simp [pathBytes] at hi
    · simp [PROBE_MNT_ITERATIONS] at h8
    · rw [hml0]
      exact rfl
    · intro v hv
      rw [hml0] at hv
      simp at hv
  · obtain ⟨c, rest, rfl⟩ := List.exists_cons_of_ne_nil hnil
    have h257 : 257 * PROBE_MNT_ITERATIONS ≤ MAX_BUF_LEN := by decide
    set d := mnt_walk PROBE_MNT_ITERATIONS
      ⟨bf, c :: rest, MAX_BUF_LEN, (MAX_BUF_LEN : Int), false, 0, []⟩ with hd
    obtain ⟨hb, hl, hres, hcalls, hcontent, hframe, nw, hwr, htile⟩ :=
      mnt_walk_spec PROBE_MNT_ITERATIONS (c :: rest) bf MAX_BUF_LEN 0 [] d hval h257
        (le_refl MAX_BUF_LEN) hd
    have htk : (c :: rest).take PROBE_MNT_ITERATIONS = c :: rest.take 7 := rfl
    have hLpos : 0 < (pathBytes ((c :: rest).take PROBE_MNT_ITERATIONS)).length := by
      rw [htk]
      exact pathBytes_pos c (rest.take 7)
    have hLle : (pathBytes ((c :: rest).take PROBE_MNT_ITERATIONS)).length ≤ 2048 := by
      have h1 := pathBytes_length_le ((c :: rest).take PROBE_MNT_ITERATIONS)
        (fun n hn => (hval n (List.mem_of_mem_take hn)).1)
      have h2 : ((c :: rest).take PROBE_MNT_ITERATIONS).length ≤ PROBE_MNT_ITERATIONS := by
        simp [List.length_take]
      have h3 : 256 * ((c :: rest).take PROBE_MNT_ITERATIONS).length ≤ 2048 := by
        have := Nat.mul_le_mul_left 256 h2
        simpa [PROBE_MNT_ITERATIONS] using this
      omega
    have hM : MAX_BUF_LEN = 4096 := rfl
    have hne : ¬(d.bptr = MAX_BUF_LEN) := by
      rw [hb]
      omega
    have hpos : ((MAX_BUF_LEN - (pathBytes ((c :: rest).take PROBE_MNT_ITERATIONS)).length
        : Nat) : Int) > 0 := by omega
    have hml : mnt_path_local (c :: rest) bf =
        ⟨d.buf, d.bptr, ((pathBytes ((c :: rest).take PROBE_MNT_ITERATIONS)).length : Int),
          if d.resolved then 0 else UNRESOLVED_PATH_COMPONENTS, d.resolved, d.calls, d.writes⟩ := by
      simp only [mnt_path_local, prepend_mnt_path, ← hd]
      rw [if_neg hne]
      show (⟨d.buf, d.bptr,
          if d.blen > 0 then (MAX_BUF_LEN : Int) - d.blen else d.blen,
          if d.resolved then 0 else UNRESOLVED_PATH_COMPONENTS,
          d.resolved, d.calls, d.writes⟩ : MntPathLocal) = _
      rw [hl]
      rw [if_pos hpos]
      congr 1
      omega
    refine ⟨fun h7 => ?_, fun h8 => ?_, ?_, ?_⟩
    · have hlen7 : rest.length + 1 ≤ 7 := by simpa using h7
      have htk7 : (c :: rest).take PROBE_MNT_ITERATIONS = c :: rest :=
        List.take_of_length_le (by simp [PROBE_MNT_ITERATIONS]; omega)
      have hres7 : d.resolved = true := by
        rw [hres]
        exact decide_eq_true (by simp [PROBE_MNT_ITERATIONS]; omega)
      refine ⟨?_, ?_, ?_⟩
      · simp [hml, hres7]
      · simp only [hml, htk7]
      · intro i hi
        simp only [hml]
        rw [hb, htk7]
        rw [htk7] at hcontent
        exact hcontent i hi
    · have hlen8 : 8 ≤ rest.length + 1 := by simpa [PROBE_MNT_ITERATIONS] using h8
      have hres8 : d.resolved = false := by
        rw [hres]
        exact decide_eq_false (by simp [PROBE_MNT_ITERATIONS]; omega)
      refine ⟨?_, ?_, ?_, ?_, ?_⟩
      · simp [hml, hres8]
      · simp only [hml]
      · simp only [hml]
        exact_mod_cast hLpos
      · intro i hi
        simp only [hml]
        rw [hb]
        exact hcontent i hi
      · refine ⟨pathBytes ((c :: rest).drop PROBE_MNT_ITERATIONS), ?_⟩
        rw [← pathBytes_append, List.take_append_drop]
    · simp only [hml]
      rw [hb, hwr, List.append_nil]
      exact htile
    · intro v hv
      simp only [hml] at hv ⊢
      rw [hwr, List.append_nil] at hv
      rw [hb]
      have hbd := writesTile_bounds _ _ nw htile v hv
      exact hbd

/-- A depth-2 hierarchy: mount path `"/b/a"`. -/
def twoNames : List (List Nat) := [[97], [98]]

/-- Witness for `mount_path_resolution` at the depth-2 hierarchy. -/
theorem mount_path_resolution_witness :
    (mnt_path_local twoNames zeroBuf).error = 0 ∧
    (mnt_path_local twoNames zeroBuf).buflen = ((pathBytes twoNames).length : Int) ∧
    writesTile (mnt_path_local twoNames zeroBuf).bufptr
      (mnt_path_local twoNames zeroBuf).writes MAX_BUF_LEN := by
  have hv : ValidNames twoNames := by unfold ValidNames; decide
  have h := mount_path_resolution twoNames zeroBuf hv
  exact ⟨(h.1 (by decide)).1, (h.1 (by decide)).2.1, h.2.2.1⟩

end Ceems
